import Mathlib

/-!
Verification development for the DaliTrail geospatial feature store
(`src/geodata.py`, `src/scripts/generate_lite_db.py`).

The SQLite `features` table is modelled as a `List Feature`; SQL `SELECT … WHERE`
becomes `List.filter` over that list (row order of an unordered `SELECT` is the
list order of the model).  Python `float` coordinates are modelled as `ℚ`; the
transcendental helpers (`math.cos ∘ math.radians` and `_haversine_km`) cannot be
embedded computably, so they are abstracted as an arbitrary function bundle
`RealFns` — every theorem below is proved for every choice of that bundle, hence
in particular for the real haversine distance.  Python string truthiness
(`if country:`) is modelled by `truthy`, and `None`-able columns by `Option`.
-/

namespace DaliTrail

/-- Row of the `features` table, as selected by `fetch_nearby_features` and
copied by `build_lite_dataset` (geoname_id, name, latitude, longitude,
feature_class, feature_code, country, admin1, admin2, population, elevation,
timezone).  Nullable columns are `Option`. -/
structure Feature where
  geoname_id : Int
  name : String
  latitude : ℚ
  longitude : ℚ
  feature_class : Option String
  feature_code : Option String
  country : Option String
  admin1 : Option String
  admin2 : Option String
  population : Option Int
  elevation : Option ℚ
  timezone : Option String
deriving DecidableEq, Repr

/-- The `NearbyFeature` dataclass of `geodata.py`: a feature row annotated with
its computed `distance_km`. -/
structure NearbyFeature where
  geoname_id : Int
  name : String
  latitude : ℚ
  longitude : ℚ
  feature_class : Option String
  feature_code : Option String
  country : Option String
  admin1 : Option String
  admin2 : Option String
  population : Option Int
  elevation : Option ℚ
  timezone : Option String
  distance_km : ℚ
deriving DecidableEq, Repr

/-- Bundle of the floating-point transcendental helpers of `geodata.py`:
`cosRad x` stands for `math.cos(math.radians(x))` as used in `_bounding_box`,
and `hav lat1 lng1 lat2 lng2` stands for `_haversine_km(lat1, lng1, lat2, lng2)`
(Earth radius 6371 km great-circle formula).  All theorems are quantified over
this bundle. -/
structure RealFns where
  cosRad : ℚ → ℚ
  hav : ℚ → ℚ → ℚ → ℚ → ℚ

/-- Python string truthiness of an optional string: `None` and `""` are falsy. -/
def truthy : Option String → Bool
  | none => false
  | some s => !s.isEmpty

/-- Shallow embedding of `_bounding_box(lat, lng, radius_km)`: latitude radius
`radius_km / 111.0` degrees, longitude radius `radius_km / (111.0 * cos_lat)`
with the cosine clamped below by `1e-6`. -/
def bounding_box (M : RealFns) (lat lng radius_km : ℚ) : ℚ × ℚ × ℚ × ℚ :=
  let lat_radius_deg := radius_km / 111
  let cos_lat := max (M.cosRad lat) (1 / 1000000)
  let lng_radius_deg := radius_km / (111 * cos_lat)
  (lat - lat_radius_deg, lat + lat_radius_deg, lng - lng_radius_deg, lng + lng_radius_deg)

/-- The SQL expression `feature_class || \x27.\x27 || feature_code`: `NULL` when either
column is `NULL`, else the compound `CLASS.CODE` string. -/
def compound_code (f : Feature) : Option String :=
  match f.feature_class, f.feature_code with
  | some c, some d => some (c ++ "." ++ d)
  | _, _ => none

/-- The optional feature-code restriction of `fetch_nearby_features` /
`build_lite_dataset`: `if feature_codes: codes = list(feature_codes); if codes: …`,
adding an `IN` membership test over the compound code.  A `NULL` compound code
never matches an SQL `IN` list. -/
def code_filter (feature_codes : Option (List String)) (f : Feature) : Bool :=
  match feature_codes with
  | none => true
  | some codes =>
    if codes.isEmpty then true
    else
      match compound_code f with
      | some s => codes.contains s
      | none => false

/-- The SQL range predicate `latitude BETWEEN ? AND ? AND longitude BETWEEN ? AND ?`
bound to the bounding box of the query point. -/
def in_bounding_box (M : RealFns) (lat lng radius_km : ℚ) (f : Feature) : Bool :=
  let box := bounding_box M lat lng radius_km
  decide (box.1 ≤ f.latitude) && decide (f.latitude ≤ box.2.1) &&
    decide (box.2.2.1 ≤ f.longitude) && decide (f.longitude ≤ box.2.2.2)

/-- Rows returned by the candidate `SELECT` of `fetch_nearby_features`
(bounding-box range predicate plus the optional feature-code `IN` filter). -/
def nearby_rows (M : RealFns) (db : List Feature) (lat lng radius_km : ℚ)
    (feature_codes : Option (List String)) : List Feature :=
  db.filter (fun f => in_bounding_box M lat lng radius_km f && code_filter feature_codes f)

/-- Construction of a `NearbyFeature` from a row and its computed distance. -/
def annotate (f : Feature) (d : ℚ) : NearbyFeature :=
  { geoname_id := f.geoname_id, name := f.name, latitude := f.latitude,
    longitude := f.longitude, feature_class := f.feature_class,
    feature_code := f.feature_code, country := f.country, admin1 := f.admin1,
    admin2 := f.admin2, population := f.population, elevation := f.elevation,
    timezone := f.timezone, distance_km := d }

/-- The post-filter loop of `fetch_nearby_features`: compute each candidate row's
haversine distance and keep it (annotated) only when `distance <= radius_km`. -/
def nearby_candidates (M : RealFns) (db : List Feature) (lat lng radius_km : ℚ)
    (feature_codes : Option (List String)) : List NearbyFeature :=
  (nearby_rows M db lat lng radius_km feature_codes).filterMap fun row =>
    let distance := M.hav lat lng row.latitude row.longitude
    if distance ≤ radius_km then some (annotate row distance) else none

/-- Comparison used by `features.sort(key=lambda feature: feature.distance_km)`. -/
def nearbyLE (a b : NearbyFeature) : Bool :=
  decide (a.distance_km ≤ b.distance_km)

/-- Shallow embedding of `fetch_nearby_features`.  The argument checks come
first (raising `ValueError`, modelled as `Except.error` with the exact message);
then candidates are fetched, distance-filtered, stably sorted ascending by
`distance_km` (Python `list.sort` is stable; modelled by `List.mergeSort`), and
truncated to `limit` entries. -/
def fetch_nearby_features (M : RealFns) (db : List Feature) (lat lng radius_km : ℚ)
    (limit : ℤ) (feature_codes : Option (List String)) :
    Except String (List NearbyFeature) :=
  if radius_km ≤ 0 then .error "radius_km must be positive"
  else if ¬ (1 ≤ limit ∧ limit ≤ 200) then .error "limit must be within [1, 200]"
  else
    .ok (((nearby_candidates M db lat lng radius_km feature_codes).mergeSort nearbyLE).take
      limit.toNat)

/-- Bundle used to instantiate `RealFns` in concrete evaluations. -/
def sampleFns : RealFns :=
  { cosRad := fun _ => 1, hav := fun _ _ _ _ => 0 }

instance {ε α : Type} [DecidableEq ε] [DecidableEq α] : DecidableEq (Except ε α) :=
  fun a b =>
    match a, b with
    | .error e, .error f =>
      if h : e = f then .isTrue (h ▸ rfl)
      else .isFalse (fun hc => h (Except.error.inj hc))
    | .ok x, .ok y =>
      if h : x = y then .isTrue (h ▸ rfl)
      else .isFalse (fun hc => h (Except.ok.inj hc))
    | .error _, .ok _ => .isFalse Except.noConfusion
    | .ok _, .error _ => .isFalse Except.noConfusion

/-- The `",".join("?" for _ in codes)` placeholder string. -/
def placeholders (codes : List String) : String :=
  String.intercalate "," (codes.map fun _ => "?")

/-- The compound-code membership clause appended (identically) by both query
builders when `feature_codes` is non-empty: an `IN` list of `?` placeholders. -/
def code_clause (feature_codes : Option (List String)) : List String :=
  match feature_codes with
  | none => []
  | some codes =>
    if codes.isEmpty then []
    else ["(feature_class || \x27.\x27 || feature_code) IN (" ++ placeholders codes ++ ")"]

/-- Filter clauses of the candidate query of `fetch_nearby_features`:
two range clauses plus, when `feature_codes` is non-empty, a membership clause
built only from `?` placeholders. -/
def nearby_filters (feature_codes : Option (List String)) : List String :=
  ["latitude BETWEEN ? AND ?", "longitude BETWEEN ? AND ?"] ++ code_clause feature_codes

/-- Query text assembled by `fetch_nearby_features`. -/
def nearby_query (feature_codes : Option (List String)) : String :=
  "SELECT geoname_id, name, latitude, longitude, feature_class, feature_code, " ++
    "country, admin1, admin2, population, elevation, timezone " ++
    "FROM features WHERE " ++ String.intercalate " AND " (nearby_filters feature_codes)

/-- Filter clauses of `build_lite_dataset`: one equality clause per truthy field,
plus the placeholder-only membership clause for non-empty `feature_codes`. -/
def lite_filters (country admin1 admin2 : Option String)
    (feature_codes : Option (List String)) : List String :=
  (if truthy country then ["country = ?"] else []) ++
    (if truthy admin1 then ["admin1 = ?"] else []) ++
    (if truthy admin2 then ["admin2 = ?"] else []) ++
    code_clause feature_codes

/-- The `where_sql` string of `build_lite_dataset`:
`" WHERE " + " AND ".join(filters) if filters else ""`. -/
def lite_where_sql (country admin1 admin2 : Option String)
    (feature_codes : Option (List String)) : String :=
  let filters := lite_filters country admin1 admin2 feature_codes
  if filters.isEmpty then "" else " WHERE " ++ String.intercalate " AND " filters

/-- Bound-parameter list of `build_lite_dataset`: the truthy filter values in
clause order, followed by the feature codes. -/
def lite_params (country admin1 admin2 : Option String)
    (feature_codes : Option (List String)) : List String :=
  (if truthy country then [country.getD ""] else []) ++
    (if truthy admin1 then [admin1.getD ""] else []) ++
    (if truthy admin2 then [admin2.getD ""] else []) ++
    (match feature_codes with
     | none => []
     | some codes => if codes.isEmpty then [] else codes)

/-- Number of feature codes carried by the optional argument (`None` counts 0). -/
def code_count : Option (List String) → ℕ
  | none => 0
  | some codes => codes.length

/-- Python `s or t` on strings: `t` when `s` is empty, else `s`. -/
def pyOr (s t : String) : String :=
  if s.isEmpty then t else s

/-- Shallow embedding of `build_filter_label`: one `field=value` bit per truthy
field in the order country, admin1, admin2, codes; joined with `";"`, with the
Python `or "all"` fallback for the empty join. -/
def build_filter_label (country admin1 admin2 : Option String)
    (feature_codes : Option (List String)) : String :=
  let bits : List String :=
    (if truthy country then ["country=" ++ country.getD ""] else []) ++
      (if truthy admin1 then ["admin1=" ++ admin1.getD ""] else []) ++
      (if truthy admin2 then ["admin2=" ++ admin2.getD ""] else []) ++
      (match feature_codes with
       | none => []
       | some codes =>
         if codes.isEmpty then []
         else ["codes=" ++ String.intercalate "," codes])
  pyOr (String.intercalate ";" bits) "all"

/-- Comparison definition written from the spec's words, for the refinement part
of the metadata claim: a textual filter description built deterministically from
the filter fields in the fixed field order `country=…;admin1=…;admin2=…;codes=…`,
omitting absent fields, defaulting to the literal `all` when no field is
present. -/
def filter_label_spec (country admin1 admin2 : Option String)
    (feature_codes : Option (List String)) : String :=
  let parts : List String :=
    (if truthy country then ["country=" ++ country.getD ""] else []) ++
      (if truthy admin1 then ["admin1=" ++ admin1.getD ""] else []) ++
      (if truthy admin2 then ["admin2=" ++ admin2.getD ""] else []) ++
      (match feature_codes with
       | none => []
       | some codes =>
         if codes.isEmpty then []
         else ["codes=" ++ String.intercalate "," codes])
  if parts.isEmpty then "all" else String.intercalate ";" parts

/-- Row predicate of the copy `SELECT` of `build_lite_dataset`: conjunction of
the truthy equality filters and the optional compound-code membership filter. -/
def lite_pred (country admin1 admin2 : Option String)
    (feature_codes : Option (List String)) (f : Feature) : Bool :=
  (if truthy country then f.country == country else true) &&
    (if truthy admin1 then f.admin1 == admin1 else true) &&
    (if truthy admin2 then f.admin2 == admin2 else true) &&
    code_filter feature_codes f

/-- Logical content of a finished lite database file: its `features` table rows
(in copy order) and its `metadata` table rows (in insertion order). -/
structure LiteBuild where
  features : List Feature
  metadata : List (String × String)
deriving DecidableEq, Repr

/-- Shallow embedding of `build_lite_dataset` (the table contents it writes).
The `now` argument stands for `datetime.now(timezone.utc).isoformat()`, the one
effectful input.  Rows stream from the master in master order; metadata is the
dict `lite_filter` (the caller label, or the built filter label when the label
is empty) and `lite_generated_at`. -/
def build_lite_dataset (master : List Feature) (country admin1 admin2 : Option String)
    (feature_codes : Option (List String)) (label now : String) : LiteBuild :=
  { features := master.filter (lite_pred country admin1 admin2 feature_codes)
    metadata :=
      [("lite_filter", pyOr label (build_filter_label country admin1 admin2 feature_codes)),
       ("lite_generated_at", now)] }

/-- File name of the default lite dataset. -/
def default_dataset_name : String := "geonames-lite-us-wa.db"

/-- File name of the master dataset. -/
def master_dataset_name : String := "geonames-all_countries_latest.db"

/-- The fixed candidate paths `DEFAULT_DATASET_PATHS`, parameterised by
`BASE_DIR` and `BASE_DIR.parent`. -/
def default_dataset_paths (baseDir parentDir : String) : List String :=
  [baseDir ++ "/data/" ++ default_dataset_name,
   baseDir ++ "/assets/data/" ++ default_dataset_name,
   parentDir ++ "/DaliTrailData/data/" ++ default_dataset_name]

/-- The fixed candidate paths `DEFAULT_MASTER_CANDIDATES`. -/
def default_master_candidates (baseDir parentDir : String) : List String :=
  [baseDir ++ "/data/" ++ master_dataset_name,
   parentDir ++ "/DaliTrailData/data/" ++ master_dataset_name]

/-- Shallow embedding of `resolve_dataset_path`.  `env` is the value of
`DALITRAIL_GEONAMES_DB` (`none` when unset; Python truthiness makes the empty
string fall through), `resolveP` stands for `Path(...).expanduser().resolve()`,
and `fsExists` is the filesystem existence probe. -/
def resolve_dataset_path (env : Option String) (resolveP : String → String)
    (fsExists : String → Bool) (baseDir parentDir : String) : Except String String :=
  if truthy env then
    let candidate := resolveP (env.getD "")
    if fsExists candidate then .ok candidate
    else .error ("Dataset specified by DALITRAIL_GEONAMES_DB not found: " ++ candidate)
  else
    match (default_dataset_paths baseDir parentDir).find? fsExists with
    | some c => .ok c
    | none =>
      .error ("Unable to locate " ++ default_dataset_name ++
        ". Set DALITRAIL_GEONAMES_DB to the absolute dataset path.")

/-- Shallow embedding of `resolve_master_dataset_path` (override variable
`DALITRAIL_GEONAMES_MASTER_DB`). -/
def resolve_master_dataset_path (env : Option String) (resolveP : String → String)
    (fsExists : String → Bool) (baseDir parentDir : String) : Except String String :=
  if truthy env then
    let candidate := resolveP (env.getD "")
    if fsExists candidate then .ok candidate
    else .error ("Master dataset specified by DALITRAIL_GEONAMES_MASTER_DB not found: " ++ candidate)
  else
    match (default_master_candidates baseDir parentDir).find? fsExists with
    | some c => .ok c
    | none =>
      .error ("Unable to locate " ++ master_dataset_name ++
        ". Set DALITRAIL_GEONAMES_MASTER_DB to the absolute path.")

/-- Minimal filesystem state for the output-path handling of
`build_lite_dataset`: regular files (path components paired with content) and
directories. -/
structure FSState where
  files : List (List String × String)
  dirs : List (List String)
deriving Repr

/-- File existence probe (`out_path.exists()`). -/
def pathExistsFS (fs : FSState) (p : List String) : Bool :=
  fs.files.any (fun q => q.1 == p)

/-- File removal (`out_path.unlink()`). -/
def unlinkFS (fs : FSState) (p : List String) : FSState :=
  { fs with files := fs.files.filter (fun q => !(q.1 == p)) }

/-- All ancestor directories of a path: the nonempty proper prefixes of its
parent. -/
def ancestorsOf (p : List String) : List (List String) :=
  p.dropLast.inits.filter (fun d => !d.isEmpty)

/-- The `out_path.parent.mkdir(parents=True, exist_ok=True)` call: add every
missing ancestor directory. -/
def mkdir_parents (fs : FSState) (p : List String) : FSState :=
  { fs with dirs := fs.dirs ++ (ancestorsOf p).filter (fun d => !(decide (d ∈ fs.dirs))) }

/-- Filesystem prelude of `build_lite_dataset`: create parent directories, then
remove the output path if it already exists. -/
def build_prelude (fs : FSState) (out : List String) : FSState :=
  let fs1 := mkdir_parents fs out
  if pathExistsFS fs1 out then unlinkFS fs1 out else fs1

/-- Creation of the fresh output database file by `sqlite3.connect(out_path)`;
`content` stands for the bytes written by the build. -/
def create_lite_file (fs : FSState) (out : List String) (content : String) : FSState :=
  { fs with files := fs.files ++ [(out, content)] }

/-- The filesystem effect of one `build_lite_dataset` invocation on the output
path: prelude, then fresh creation. -/
def build_lite_fs (fs : FSState) (out : List String) (content : String) : FSState :=
  create_lite_file (build_prelude fs out) out content

/-- Rendering of a path for error messages (`str(path)` of a relative path). -/
def render_path (p : List String) : String :=
  String.intercalate "/" p

/-- Shallow embedding of `ensure_output(path, overwrite)` of
`scripts/generate_lite_db.py`: an existing output without `overwrite` raises
`FileExistsError` (nothing is removed, no directory is created); otherwise any
existing output is unlinked and then the parent directories are created. -/
def ensure_output (fs : FSState) (path : List String) (overwrite : Bool) :
    Except String FSState :=
  if pathExistsFS fs path then
    if overwrite then .ok (mkdir_parents (unlinkFS fs path) path)
    else .error ("Output already exists: " ++ render_path path)
  else .ok (mkdir_parents fs path)

/-- Python `dict` insertion on an association list with unique keys: replace the
existing binding in place, else append. -/
def dict_insert (d : List (String × String)) (k v : String) : List (String × String) :=
  if d.any (fun p => p.1 == k) then d.map (fun p => if p.1 == k then (k, v) else p)
  else d ++ [(k, v)]

/-- Python `dict.update`: left fold of `dict_insert` over the additions. -/
def dict_update (d : List (String × String)) (adds : List (String × String)) :
    List (String × String) :=
  adds.foldl (fun acc p => dict_insert acc p.1 p.2) d

/-- Shallow embedding of `copy_metadata` of `scripts/generate_lite_db.py`: the
master's metadata rows updated with the three derived entries (the `now`
argument stands for the formatted UTC timestamp). -/
def copy_metadata (src_rows : List (String × String))
    (filter_description source_path now : String) : List (String × String) :=
  dict_update src_rows
    [("lite_generated_at", now),
     ("lite_filter", filter_description),
     ("lite_source_db", source_path)]

/-- Grouping key of `scan_regions`: `(country, admin1)` for level `admin1`,
`(country, admin1, admin2)` for level `admin2` (modelled with an always-`none`
third component at level `admin1`). -/
def region_key (level : String) (f : Feature) :
    Option String × Option String × Option String :=
  (f.country, f.admin1, if level == "admin2" then f.admin2 else none)

/-- Rows scanned by `scan_regions`: the whole master, restricted to one country
when the truthy `country` filter is given (`country = ?`). -/
def region_base (db : List Feature) (country : Option String) : List Feature :=
  if truthy country then db.filter (fun f => f.country == country) else db

/-- The member rows of one `GROUP BY` group. -/
def region_group (db : List Feature) (level : String) (country : Option String)
    (k : Option String × Option String × Option String) : List Feature :=
  (region_base db country).filter (fun f => decide (region_key level f = k))

/-- SQL `MIN` aggregate over a column (0 on the empty list, never used there). -/
def sql_min : List ℚ → ℚ
  | [] => 0
  | x :: xs => xs.foldl min x

/-- SQL `MAX` aggregate over a column (0 on the empty list, never used there). -/
def sql_max : List ℚ → ℚ
  | [] => 0
  | x :: xs => xs.foldl max x

/-- One result row of `scan_regions`: group identity, count `n`, bounding
extents, the requested level and the synthesized label. -/
structure RegionRow where
  country : Option String
  admin1 : Option String
  admin2 : Option String
  n : ℕ
  min_lat : ℚ
  max_lat : ℚ
  min_lng : ℚ
  max_lng : ℚ
  level : String
  label : String
deriving DecidableEq, Repr

/-- The truthy identity parts used for the label:
`[p for p in [country, admin1, admin2] if p]`. -/
def label_parts (country admin1 admin2 : Option String) : List String :=
  [country, admin1, admin2].filterMap (fun o => if truthy o then o else none)

/-- The synthesized region label: parts joined with a bullet separator, count
appended in parentheses. -/
def region_label (country admin1 admin2 : Option String) (n : ℕ) : String :=
  String.intercalate " • " (label_parts country admin1 admin2) ++
    " (" ++ toString n ++ ")"

/-- Descriptor of one group: aggregates of its member rows. -/
def mk_region_row (db : List Feature) (level : String) (country : Option String)
    (k : Option String × Option String × Option String) : RegionRow :=
  let grp := region_group db level country k
  let lats := grp.map (·.latitude)
  let lngs := grp.map (·.longitude)
  { country := k.1, admin1 := k.2.1, admin2 := k.2.2, n := grp.length,
    min_lat := sql_min lats, max_lat := sql_max lats,
    min_lng := sql_min lngs, max_lng := sql_max lngs,
    level := level,
    label := region_label k.1 k.2.1 k.2.2 grp.length }

/-- All group descriptors passing the `HAVING n >= min_count` clause, one per
distinct key of the scanned rows. -/
def region_rows (db : List Feature) (level : String) (country : Option String)
    (min_count : ℕ) : List RegionRow :=
  ((((region_base db country).map (region_key level)).dedup).map
      (mk_region_row db level country)).filter
    (fun r => decide (min_count ≤ r.n))

/-- The `ORDER BY n DESC` comparison. -/
def region_desc (a b : RegionRow) : Bool :=
  decide (b.n ≤ a.n)

/-- Shallow embedding of `scan_regions`: validate `level`, aggregate, keep
groups meeting `min_count`, order by descending count, truncate to `limit`. -/
def scan_regions (db : List Feature) (level : String) (country : Option String)
    (min_count limit : ℕ) : Except String (List RegionRow) :=
  if ¬ (level = "admin1" ∨ level = "admin2") then
    .error "level must be \x27admin1\x27 or \x27admin2\x27"
  else
    .ok (((region_rows db level country min_count).mergeSort region_desc).take limit)

/-- Key of a region row, for the distinct-groups statement. -/
def region_row_key (r : RegionRow) : Option String × Option String × Option String :=
  (r.country, r.admin1, r.admin2)

/-- Concrete database used by the region-scan witness. -/
def witnessDb : List Feature :=
  [{ geoname_id := 1, name := "Seattle", latitude := 1, longitude := 2,
     feature_class := none, feature_code := none, country := some "US",
     admin1 := some "WA", admin2 := none, population := none, elevation := none,
     timezone := none }]

/-- Expected scan result on `witnessDb`. -/
def witnessRow : RegionRow :=
  { country := some "US", admin1 := some "WA", admin2 := none, n := 1,
    min_lat := 1, max_lat := 1, min_lng := 2, max_lng := 2,
    level := "admin1", label := "US • WA (1)" }

open List in
theorem nearbyLE_trans (a b c : NearbyFeature) (hab : nearbyLE a b) (hbc : nearbyLE b c) :
    nearbyLE a c := by
  simp only [nearbyLE, decide_eq_true_eq] at *
  exact le_trans hab hbc

theorem nearbyLE_total (a b : NearbyFeature) : nearbyLE a b || nearbyLE b a := by
  simp only [nearbyLE, Bool.or_eq_true, decide_eq_true_eq]
  exact le_total _ _

/-- Stability of the distance sort on each tie class: sorting does not change
the subsequence of elements at any fixed distance. -/
theorem mergeSort_filter_dist (l : List NearbyFeature) (d : ℚ) :
    (l.mergeSort nearbyLE).filter (fun f => decide (f.distance_km = d)) =
      l.filter (fun f => decide (f.distance_km = d)) := by
  have hpair : (l.filter (fun f => decide (f.distance_km = d))).Pairwise
      (fun a b => nearbyLE a b) := by
    refine List.pairwise_of_forall_mem_list ?_
    intro a ha b hb
    have ha' := (List.mem_filter.mp ha).2
    have hb' := (List.mem_filter.mp hb).2
    simp only [decide_eq_true_eq] at ha' hb'
    simp [nearbyLE, ha', hb']
  have hsub : List.Sublist (l.filter (fun f => decide (f.distance_km = d)))
      (l.mergeSort nearbyLE) :=
    List.sublist_mergeSort nearbyLE_trans nearbyLE_total hpair (List.filter_sublist l)
  have h2 : List.Sublist (l.filter (fun f => decide (f.distance_km = d)))
      ((l.mergeSort nearbyLE).filter (fun f => decide (f.distance_km = d))) := by
    have h3 := hsub.filter (fun f => decide (f.distance_km = d))
    rwa [List.filter_eq_self.mpr (fun a ha => (List.mem_filter.mp ha).2)] at h3
  have hlen : ((l.mergeSort nearbyLE).filter (fun f => decide (f.distance_km = d))).length =
      (l.filter (fun f => decide (f.distance_km = d))).length := by
    rw [← List.countP_eq_length_filter, ← List.countP_eq_length_filter]
    exact (List.mergeSort_perm l nearbyLE).countP_eq _
  exact (h2.eq_of_length hlen.symm).symm

/-- Valid arguments let `fetch_nearby_features` reach the query pipeline. -/
theorem fetch_nearby_features_ok (M : RealFns) (db : List Feature)
    (lat lng radius_km : ℚ) (limit : ℤ) (feature_codes : Option (List String))
    (hr : 0 < radius_km) (hlo : 1 ≤ limit) (hhi : limit ≤ 200) :
    fetch_nearby_features M db lat lng radius_km limit feature_codes =
      .ok (((nearby_candidates M db lat lng radius_km feature_codes).mergeSort
        nearbyLE).take limit.toNat) := by
  unfold fetch_nearby_features
  rw [if_neg (not_le.mpr hr), if_neg (not_not_intro ⟨hlo, hhi⟩)]

/-- Every candidate is an annotated database row within the radius. -/
theorem mem_nearby_candidates {M : RealFns} {db : List Feature} {lat lng radius_km : ℚ}
    {feature_codes : Option (List String)} {f : NearbyFeature}
    (h : f ∈ nearby_candidates M db lat lng radius_km feature_codes) :
    ∃ row ∈ nearby_rows M db lat lng radius_km feature_codes,
      f = annotate row (M.hav lat lng row.latitude row.longitude) ∧
        M.hav lat lng row.latitude row.longitude ≤ radius_km := by
  unfold nearby_candidates at h
  obtain ⟨row, hrow, heq⟩ := List.mem_filterMap.mp h
  by_cases hd : M.hav lat lng row.latitude row.longitude ≤ radius_km
  · rw [if_pos hd] at heq
    exact ⟨row, hrow, (Option.some.inj heq).symm, hd⟩
  · rw [if_neg hd] at heq
    exact absurd heq (by simp)

/-- C1: for every call to `fetch_nearby_features` with `radius_km > 0` and
`1 ≤ limit ≤ 200`, every feature of the returned list is within `radius_km`
with `distance_km` equal to the haversine distance from the query point, the
list is sorted ascending by `distance_km` with ties kept in candidate (input)
order, and the list has at most `limit` entries. -/
theorem fetch_nearby_features_correct (M : RealFns) (db : List Feature)
    (lat lng radius_km : ℚ) (limit : ℤ) (feature_codes : Option (List String))
    (res : List NearbyFeature)
    (hr : 0 < radius_km) (hlo : 1 ≤ limit) (hhi : limit ≤ 200)
    (hres : fetch_nearby_features M db lat lng radius_km limit feature_codes = .ok res) :
    (∀ f ∈ res, f.distance_km ≤ radius_km ∧
        f.distance_km = M.hav lat lng f.latitude f.longitude) ∧
      res.Pairwise (fun a b => a.distance_km ≤ b.distance_km) ∧
      (∀ d : ℚ, List.Sublist (res.filter (fun f => decide (f.distance_km = d)))
        ((nearby_candidates M db lat lng radius_km feature_codes).filter
          (fun f => decide (f.distance_km = d)))) ∧
      (res.length : ℤ) ≤ limit := by
  have hok := fetch_nearby_features_ok M db lat lng radius_km limit feature_codes hr hlo hhi
  rw [hres] at hok
  have hres' : res = ((nearby_candidates M db lat lng radius_km feature_codes).mergeSort
      nearbyLE).take limit.toNat := Except.ok.inj hok
  subst hres'
  refine ⟨?_, ?_, ?_, ?_⟩
  · intro f hf
    have hf2 : f ∈ nearby_candidates M db lat lng radius_km feature_codes :=
      List.mem_mergeSort.mp (List.mem_of_mem_take hf)
    obtain ⟨row, hrow, hfe, hd⟩ := mem_nearby_candidates hf2
    subst hfe
    exact ⟨hd, rfl⟩
  · have hs := List.sorted_mergeSort nearbyLE_trans nearbyLE_total
      (nearby_candidates M db lat lng radius_km feature_codes)
    have hs2 := hs.sublist (List.take_sublist limit.toNat
      ((nearby_candidates M db lat lng radius_km feature_codes).mergeSort nearbyLE))
    exact hs2.imp (fun h => by simpa [nearbyLE] using h)
  · intro d
    rw [← mergeSort_filter_dist (nearby_candidates M db lat lng radius_km feature_codes) d]
    exact (List.take_sublist _ _).filter _
  · have hlen : (((nearby_candidates M db lat lng radius_km feature_codes).mergeSort
      nearbyLE).take limit.toNat).length ≤ limit.toNat :=
      List.length_take_le _ _
    omega

/-- Witness for C1 at a concrete valid input. -/
theorem fetch_nearby_features_correct_witness :
    (0 : ℚ) < 1 ∧ (1 : ℤ) ≤ 5 ∧ (5 : ℤ) ≤ 200 ∧
      fetch_nearby_features sampleFns [] 0 0 1 5 none = .ok [] ∧
      ((∀ f ∈ ([] : List NearbyFeature), f.distance_km ≤ (1 : ℚ) ∧
          f.distance_km = sampleFns.hav 0 0 f.latitude f.longitude) ∧
        ([] : List NearbyFeature).Pairwise (fun a b => a.distance_km ≤ b.distance_km) ∧
        (∀ d : ℚ, List.Sublist
          (([] : List NearbyFeature).filter (fun f => decide (f.distance_km = d)))
          ((nearby_candidates sampleFns [] 0 0 1 none).filter
            (fun f => decide (f.distance_km = d)))) ∧
        (([] : List NearbyFeature).length : ℤ) ≤ 5) := by
  have hfetch : fetch_nearby_features sampleFns [] 0 0 1 5 none = .ok [] := by
    simp [fetch_nearby_features, nearby_candidates, nearby_rows]
  exact ⟨by norm_num, by norm_num, by norm_num, hfetch,
    fetch_nearby_features_correct sampleFns [] 0 0 1 5 none []
      (by norm_num) (by norm_num) (by norm_num) hfetch⟩

/-- C2: `fetch_nearby_features` fails with the `ValueError` for `radius_km ≤ 0`,
and with the limit `ValueError` for `limit` outside `[1, 200]`; under those
preconditions it never returns a result, and the outcome is independent of the
dataset (no dataset is read before the checks). -/
theorem fetch_nearby_features_invalid_args (M : RealFns) (db : List Feature)
    (lat lng radius_km : ℚ) (limit : ℤ) (feature_codes : Option (List String))
    (h : radius_km ≤ 0 ∨ limit < 1 ∨ 200 < limit) :
    (radius_km ≤ 0 →
      fetch_nearby_features M db lat lng radius_km limit feature_codes =
        .error "radius_km must be positive") ∧
      (0 < radius_km →
        fetch_nearby_features M db lat lng radius_km limit feature_codes =
          .error "limit must be within [1, 200]") ∧
      (∀ res, fetch_nearby_features M db lat lng radius_km limit feature_codes ≠ .ok res) ∧
      (∀ db', fetch_nearby_features M db lat lng radius_km limit feature_codes =
        fetch_nearby_features M db' lat lng radius_km limit feature_codes) := by
  refine ⟨?_, ?_, ?_, ?_⟩
  · intro hr
    unfold fetch_nearby_features
    rw [if_pos hr]
  · intro hr
    have hlim : ¬ (1 ≤ limit ∧ limit ≤ 200) := by
      rcases h with h | h | h
      · exact absurd hr (not_lt.mpr h)
      · omega
      · omega
    unfold fetch_nearby_features
    rw [if_neg (not_le.mpr hr), if_pos hlim]
  · intro res hcon
    by_cases hr : radius_km ≤ 0
    · unfold fetch_nearby_features at hcon
      rw [if_pos hr] at hcon
      simp at hcon
    · have hlim : ¬ (1 ≤ limit ∧ limit ≤ 200) := by
        rcases h with h | h | h
        · exact absurd h hr
        · omega
        · omega
      unfold fetch_nearby_features at hcon
      rw [if_neg hr, if_pos hlim] at hcon
      simp at hcon
  · intro db'
    by_cases hr : radius_km ≤ 0
    · unfold fetch_nearby_features
      rw [if_pos hr, if_pos hr]
    · have hlim : ¬ (1 ≤ limit ∧ limit ≤ 200) := by
        rcases h with h | h | h
        · exact absurd h hr
        · omega
        · omega
      unfold fetch_nearby_features
      rw [if_neg hr, if_pos hlim, if_neg hr, if_pos hlim]

/-- Witness for C2 at a concrete invalid input. -/
theorem fetch_nearby_features_invalid_args_witness :
    ((0 : ℚ) ≤ 0 ∨ (5 : ℤ) < 1 ∨ (200 : ℤ) < 5) ∧
      (((0 : ℚ) ≤ 0 →
        fetch_nearby_features sampleFns [] 0 0 0 5 none =
          .error "radius_km must be positive") ∧
      ((0 : ℚ) < 0 →
        fetch_nearby_features sampleFns [] 0 0 0 5 none =
          .error "limit must be within [1, 200]") ∧
      (∀ res, fetch_nearby_features sampleFns [] 0 0 0 5 none ≠ .ok res) ∧
      (∀ db', fetch_nearby_features sampleFns [] 0 0 0 5 none =
        fetch_nearby_features sampleFns db' 0 0 0 5 none)) :=
  ⟨Or.inl (by norm_num),
    fetch_nearby_features_invalid_args sampleFns [] 0 0 0 5 none (Or.inl (by norm_num))⟩

/-- Placeholder strings are determined by the number of codes alone. -/
theorem placeholders_length_eq (l l' : List String) (h : l.length = l'.length) :
    placeholders l = placeholders l' := by
  unfold placeholders
  rw [List.map_const', List.map_const', h]

/-- The membership clause is determined by the number of codes alone. -/
theorem code_clause_shape (codes codes' : Option (List String))
    (h : code_count codes = code_count codes') :
    code_clause codes = code_clause codes' := by
  cases codes with
  | none =>
    cases codes' with
    | none => rfl
    | some l' =>
      simp only [code_count] at h
      have hl : l' = [] := List.length_eq_zero.mp h.symm
      subst hl
      rfl
  | some l =>
    cases codes' with
    | none =>
      simp only [code_count] at h
      have hl : l = [] := List.length_eq_zero.mp h
      subst hl
      rfl
    | some l' =>
      simp only [code_count] at h
      by_cases he : l.isEmpty
      · have h1 : l = [] := List.isEmpty_iff.mp he
        subst h1
        have h2 : l' = [] := List.length_eq_zero.mp h.symm
        subst h2
        rfl
      · have he' : ¬ l'.isEmpty := by
          rw [List.isEmpty_iff] at he ⊢
          intro hc
          rw [hc] at h
          exact he (List.length_eq_zero.mp h)
        simp only [code_clause]
        rw [if_neg he, if_neg he', placeholders_length_eq l l' h]

/-- C3: the query text generated by the nearby-search and subset-build query
builders is determined by which filter fields are present (truthy) and by the
number of feature codes alone — changing only the filter values never changes
the query string, so values reach the engine only through the bound-parameter
list. -/
theorem query_text_shape_invariant
    (c a1 a2 c' a1' a2' : Option String) (codes codes' : Option (List String))
    (hc : truthy c = truthy c') (ha1 : truthy a1 = truthy a1')
    (ha2 : truthy a2 = truthy a2') (hcodes : code_count codes = code_count codes') :
    lite_where_sql c a1 a2 codes = lite_where_sql c' a1' a2' codes' ∧
      nearby_query codes = nearby_query codes' := by
  have hclause := code_clause_shape codes codes' hcodes
  constructor
  · unfold lite_where_sql lite_filters
    rw [hc, ha1, ha2, hclause]
  · unfold nearby_query nearby_filters
    rw [hclause]

/-- Witness for C3 at concrete value-differing, shape-agreeing inputs. -/
theorem query_text_shape_invariant_witness :
    truthy (some "US") = truthy (some "CA") ∧ truthy none = truthy none ∧
      truthy (some "King") = truthy (some "Pierce") ∧
      code_count (some ["H.LK", "T.TRL"]) = code_count (some ["P.PPL", "S.CMP"]) ∧
      (lite_where_sql (some "US") none (some "King") (some ["H.LK", "T.TRL"]) =
        lite_where_sql (some "CA") none (some "Pierce") (some ["P.PPL", "S.CMP"]) ∧
      nearby_query (some ["H.LK", "T.TRL"]) = nearby_query (some ["P.PPL", "S.CMP"])) :=
  ⟨rfl, rfl, rfl, rfl,
    query_text_shape_invariant (some "US") none (some "King") (some "CA") none
      (some "Pierce") (some ["H.LK", "T.TRL"]) (some ["P.PPL", "S.CMP"]) rfl rfl rfl rfl⟩

/-- C4: running the subset builder twice with the same arguments against the
same master yields identical `features` rows (content and order); the metadata
tables agree on their key sets and on every row other than the
`lite_generated_at` timestamp entry. -/
theorem build_lite_dataset_idempotent (master : List Feature)
    (country admin1 admin2 : Option String) (feature_codes : Option (List String))
    (label t1 t2 : String) :
    (build_lite_dataset master country admin1 admin2 feature_codes label t1).features =
      (build_lite_dataset master country admin1 admin2 feature_codes label t2).features ∧
    ((build_lite_dataset master country admin1 admin2 feature_codes label t1).metadata.filter
        (fun p => !(p.1 == "lite_generated_at"))) =
      ((build_lite_dataset master country admin1 admin2 feature_codes label t2).metadata.filter
        (fun p => !(p.1 == "lite_generated_at"))) ∧
    (build_lite_dataset master country admin1 admin2 feature_codes label t1).metadata.map
        Prod.fst =
      (build_lite_dataset master country admin1 admin2 feature_codes label t2).metadata.map
        Prod.fst :=
  ⟨rfl, rfl, rfl⟩

/-- C5: every feature returned by a search against the subset built with
`country="US"`, `admin1="WA"` has country `US` and admin1 `WA`. -/
theorem build_us_wa_roundtrip (M : RealFns) (master : List Feature)
    (bcodes : Option (List String)) (blabel bnow : String)
    (lat lng radius_km : ℚ) (limit : ℤ) (fcodes : Option (List String))
    (res : List NearbyFeature)
    (hres : fetch_nearby_features M
      (build_lite_dataset master (some "US") (some "WA") none bcodes blabel bnow).features
      lat lng radius_km limit fcodes = .ok res) :
    ∀ f ∈ res, f.country = some "US" ∧ f.admin1 = some "WA" := by
  intro f hf
  unfold fetch_nearby_features at hres
  by_cases hr : radius_km ≤ 0
  · rw [if_pos hr] at hres
    simp at hres
  · rw [if_neg hr] at hres
    by_cases hlim : ¬ (1 ≤ limit ∧ limit ≤ 200)
    · rw [if_pos hlim] at hres
      simp at hres
    · rw [if_neg hlim] at hres
      have hres' : res = ((nearby_candidates M
          (build_lite_dataset master (some "US") (some "WA") none bcodes blabel bnow).features
          lat lng radius_km fcodes).mergeSort nearbyLE).take limit.toNat :=
        (Except.ok.inj hres).symm
      subst hres'
      have hf2 := List.mem_mergeSort.mp (List.mem_of_mem_take hf)
      obtain ⟨row, hrow, hfe, _⟩ := mem_nearby_candidates hf2
      have hrow2 : row ∈
          (build_lite_dataset master (some "US") (some "WA") none bcodes blabel bnow).features :=
        (List.mem_filter.mp hrow).1
      have hpred := (List.mem_filter.mp hrow2).2
      simp only [lite_pred, truthy, Bool.and_eq_true, beq_iff_eq] at hpred
      subst hfe
      simp only [annotate]
      have h1 := hpred.1.1.1
      have h2 := hpred.1.1.2
      rw [if_pos (by decide : ((!"US".isEmpty) = true))] at h1
      rw [if_pos (by decide : ((!"WA".isEmpty) = true))] at h2
      exact ⟨eq_of_beq h1, eq_of_beq h2⟩

/-- Witness for C5 at a concrete input. -/
theorem build_us_wa_roundtrip_witness :
    fetch_nearby_features sampleFns
        (build_lite_dataset [] (some "US") (some "WA") none none "" "T").features
        0 0 1 5 none = .ok [] ∧
      ∀ f ∈ ([] : List NearbyFeature), f.country = some "US" ∧ f.admin1 = some "WA" := by
  have hfetch : fetch_nearby_features sampleFns
      (build_lite_dataset [] (some "US") (some "WA") none none "" "T").features
      0 0 1 5 none = .ok [] := by
    simp [fetch_nearby_features, nearby_candidates, nearby_rows, build_lite_dataset]
  exact ⟨hfetch, build_us_wa_roundtrip sampleFns [] none "" "T" 0 0 1 5 none [] hfetch⟩

/-- C10: passing an empty `feature_codes` collection to `fetch_nearby_features`
or `build_lite_dataset` yields exactly the same result as passing `None`. -/
theorem empty_feature_codes_no_restriction (M : RealFns) (db : List Feature)
    (lat lng radius_km : ℚ) (limit : ℤ) (master : List Feature)
    (country admin1 admin2 : Option String) (label now : String) :
    fetch_nearby_features M db lat lng radius_km limit (some []) =
      fetch_nearby_features M db lat lng radius_km limit none ∧
    build_lite_dataset master country admin1 admin2 (some []) label now =
      build_lite_dataset master country admin1 admin2 none label now :=
  ⟨rfl, rfl⟩

/-- C6 counterexample: with the override variable set to the empty string (a
set, but falsy, value) whose configured path does not exist, the resolver falls
back to the candidate list and succeeds instead of failing with the
`DatasetNotFound` error naming the configured path. -/
theorem resolver_empty_override_counterexample :
    truthy (some "") = false ∧
      (("" : String) == "/base/data/geonames-lite-us-wa.db") = false ∧
      resolve_dataset_path (some "") (fun s => s)
        (fun p => p == "/base/data/geonames-lite-us-wa.db") "/base" "/par" =
        .ok "/base/data/geonames-lite-us-wa.db" :=
  ⟨rfl, by decide, rfl⟩

/-- C6 (amended): when the override is set to a non-empty value, the resolvers
return the resolved override path when it exists and fail with the
`DatasetNotFound` message naming that path when it does not (never consulting
the candidates); when the override is unset or empty, they return the first
existing candidate in the fixed order, and fail with the message naming the
default filename and the override variable when none exists. -/
theorem resolver_resolution_order (env : Option String) (resolveP : String → String)
    (fsExists : String → Bool) (baseDir parentDir : String) :
    (truthy env = true →
      (fsExists (resolveP (env.getD "")) = true →
        resolve_dataset_path env resolveP fsExists baseDir parentDir =
          .ok (resolveP (env.getD "")) ∧
        resolve_master_dataset_path env resolveP fsExists baseDir parentDir =
          .ok (resolveP (env.getD ""))) ∧
      (fsExists (resolveP (env.getD "")) = false →
        resolve_dataset_path env resolveP fsExists baseDir parentDir =
          .error ("Dataset specified by DALITRAIL_GEONAMES_DB not found: " ++
            resolveP (env.getD "")) ∧
        resolve_master_dataset_path env resolveP fsExists baseDir parentDir =
          .error ("Master dataset specified by DALITRAIL_GEONAMES_MASTER_DB not found: " ++
            resolveP (env.getD "")))) ∧
    (truthy env = false →
      resolve_dataset_path env resolveP fsExists baseDir parentDir =
        (if fsExists (baseDir ++ "/data/" ++ default_dataset_name) then
          .ok (baseDir ++ "/data/" ++ default_dataset_name)
        else if fsExists (baseDir ++ "/assets/data/" ++ default_dataset_name) then
          .ok (baseDir ++ "/assets/data/" ++ default_dataset_name)
        else if fsExists (parentDir ++ "/DaliTrailData/data/" ++ default_dataset_name) then
          .ok (parentDir ++ "/DaliTrailData/data/" ++ default_dataset_name)
        else .error ("Unable to locate " ++ default_dataset_name ++
          ". Set DALITRAIL_GEONAMES_DB to the absolute dataset path.")) ∧
      resolve_master_dataset_path env resolveP fsExists baseDir parentDir =
        (if fsExists (baseDir ++ "/data/" ++ master_dataset_name) then
          .ok (baseDir ++ "/data/" ++ master_dataset_name)
        else if fsExists (parentDir ++ "/DaliTrailData/data/" ++ master_dataset_name) then
          .ok (parentDir ++ "/DaliTrailData/data/" ++ master_dataset_name)
        else .error ("Unable to locate " ++ master_dataset_name ++
          ". Set DALITRAIL_GEONAMES_MASTER_DB to the absolute path."))) := by
  refine ⟨fun henv => ⟨fun hex => ⟨?_, ?_⟩, fun hex => ⟨?_, ?_⟩⟩, fun henv => ⟨?_, ?_⟩⟩
  · simp [resolve_dataset_path, henv, hex]
  · simp [resolve_master_dataset_path, henv, hex]
  · simp [resolve_dataset_path, henv, hex]
  · simp [resolve_master_dataset_path, henv, hex]
  · unfold resolve_dataset_path default_dataset_paths
    rw [if_neg (by simp [henv])]
    cases h1 : fsExists (baseDir ++ "/data/" ++ default_dataset_name) with
    | true => simp [List.find?, h1]
    | false =>
      cases h2 : fsExists (baseDir ++ "/assets/data/" ++ default_dataset_name) with
      | true => simp [List.find?, h1, h2]
      | false =>
        cases h3 : fsExists (parentDir ++ "/DaliTrailData/data/" ++ default_dataset_name) with
        | true => simp [List.find?, h1, h2, h3]
        | false => simp [List.find?, h1, h2, h3]
  · unfold resolve_master_dataset_path default_master_candidates
    rw [if_neg (by simp [henv])]
    cases h1 : fsExists (baseDir ++ "/data/" ++ master_dataset_name) with
    | true => simp [List.find?, h1]
    | false =>
      cases h2 : fsExists (parentDir ++ "/DaliTrailData/data/" ++ master_dataset_name) with
      | true => simp [List.find?, h1, h2]
      | false => simp [List.find?, h1, h2]

/-- Witness for the amended C6 at a concrete input: a set, existing override is
returned as is. -/
theorem resolver_resolution_order_witness :
    truthy (some "/x") = true ∧
      ((fun p => p == "/x") ((fun s : String => s) ((some "/x").getD ""))) = true ∧
      resolve_dataset_path (some "/x") (fun s => s) (fun p => p == "/x") "/b" "/p" =
        .ok "/x" :=
  ⟨rfl, by decide,
    (((resolver_resolution_order (some "/x") (fun s => s) (fun p => p == "/x")
      "/b" "/p").1 rfl).1 (by decide)).1⟩

/-- C7 counterexample: the offline generator's `ensure_output` invoked on an
existing output without `overwrite` (its default) fails with `FileExistsError`
instead of removing the file and creating the parent directories. -/
theorem ensure_output_no_overwrite_counterexample :
    pathExistsFS { files := [(["a", "b.db"], "old")], dirs := [] } ["a", "b.db"] = true ∧
      ensure_output { files := [(["a", "b.db"], "old")], dirs := [] } ["a", "b.db"] false =
        .error "Output already exists: a/b.db" :=
  ⟨rfl, rfl⟩

/-- C7 (amended): when the output path already exists, the API builder
(`build_lite_dataset`) unconditionally removes it before the new database is
created, creates every missing ancestor directory, touches no other file, and
the completed build leaves exactly the freshly written content; the offline
generator's `ensure_output` behaves that way only under `overwrite` — without
it, an existing output makes the invocation fail with `FileExistsError` and
nothing is removed or created. -/
theorem build_prelude_clean (fs : FSState) (out : List String) (content : String)
    (hex : pathExistsFS fs out = true) :
    pathExistsFS (build_prelude fs out) out = false ∧
      (∀ d ∈ ancestorsOf out, d ∈ (build_prelude fs out).dirs) ∧
      (∀ q : List String × String, q.1 ≠ out →
        (q ∈ fs.files ↔ q ∈ (build_prelude fs out).files)) ∧
      (build_lite_fs fs out content).files.filter (fun q => q.1 == out) =
        [(out, content)] ∧
      ensure_output fs out false =
        .error ("Output already exists: " ++ render_path out) ∧
      (∀ fs', ensure_output fs out true = .ok fs' →
        pathExistsFS fs' out = false ∧
          (∀ d ∈ ancestorsOf out, d ∈ fs'.dirs) ∧
          (∀ q : List String × String, q.1 ≠ out →
            (q ∈ fs.files ↔ q ∈ fs'.files))) := by
  have hex1 : pathExistsFS (mkdir_parents fs out) out = true := hex
  have hpre : build_prelude fs out = unlinkFS (mkdir_parents fs out) out := by
    unfold build_prelude
    rw [if_pos hex1]
  have hfiles : (build_prelude fs out).files = fs.files.filter (fun q => !(q.1 == out)) := by
    rw [hpre]
    rfl
  have hnone : pathExistsFS (build_prelude fs out) out = false := by
    rw [pathExistsFS, hfiles]
    rw [List.any_eq_false]
    intro q hq
    have := (List.mem_filter.mp hq).2
    simpa using this
  refine ⟨hnone, ?_, ?_, ?_, ?_, ?_⟩
  · intro d hd
    have hdirs : (build_prelude fs out).dirs = (mkdir_parents fs out).dirs := by
      rw [hpre]
      rfl
    rw [hdirs]
    unfold mkdir_parents
    by_cases hmem : d ∈ fs.dirs
    · exact List.mem_append_left _ hmem
    · refine List.mem_append_right _ ?_
      rw [List.mem_filter]
      exact ⟨hd, by simpa using hmem⟩
  · intro q hq
    rw [hfiles]
    constructor
    · intro hqf
      rw [List.mem_filter]
      refine ⟨hqf, ?_⟩
      simpa using hq
    · intro hqf
      exact (List.mem_filter.mp hqf).1
  · have h1 : (build_prelude fs out).files.filter (fun q => q.1 == out) = [] := by
      rw [List.filter_eq_nil_iff]
      intro q hq
      rw [hfiles] at hq
      have h2 := (List.mem_filter.mp hq).2
      simpa using h2
    simp only [build_lite_fs, create_lite_file]
    rw [List.filter_append, h1]
    simp
  · unfold ensure_output
    rw [if_pos hex]
    rfl
  · intro fs' h
    unfold ensure_output at h
    rw [if_pos hex, if_pos rfl] at h
    have hfs' : fs' = mkdir_parents (unlinkFS fs out) out := (Except.ok.inj h).symm
    subst hfs'
    refine ⟨?_, ?_, ?_⟩
    · show (fs.files.filter (fun q => !(q.1 == out))).any (fun q => q.1 == out) = false
      rw [List.any_eq_false]
      intro q hq
      have h2 := (List.mem_filter.mp hq).2
      simpa using h2
    · intro d hd
      show d ∈ (mkdir_parents (unlinkFS fs out) out).dirs
      unfold mkdir_parents
      by_cases hmem : d ∈ (unlinkFS fs out).dirs
      · exact List.mem_append_left _ hmem
      · refine List.mem_append_right _ ?_
        rw [List.mem_filter]
        exact ⟨hd, by simpa using hmem⟩
    · intro q hq
      constructor
      · intro h2
        show q ∈ fs.files.filter (fun x => !(x.1 == out))
        rw [List.mem_filter]
        exact ⟨h2, by simpa using hq⟩
      · intro h2
        have h3 : q ∈ fs.files.filter (fun x => !(x.1 == out)) := h2
        exact (List.mem_filter.mp h3).1

/-- Witness for the amended C7 at a concrete filesystem. -/
theorem build_prelude_clean_witness :
    pathExistsFS { files := [(["a", "b.db"], "old")], dirs := [] } ["a", "b.db"] = true ∧
      (pathExistsFS (build_prelude { files := [(["a", "b.db"], "old")], dirs := [] }
          ["a", "b.db"]) ["a", "b.db"] = false ∧
        (∀ d ∈ ancestorsOf ["a", "b.db"],
          d ∈ (build_prelude { files := [(["a", "b.db"], "old")], dirs := [] }
            ["a", "b.db"]).dirs) ∧
        (∀ q : List String × String, q.1 ≠ ["a", "b.db"] →
          (q ∈ ({ files := [(["a", "b.db"], "old")], dirs := [] } : FSState).files ↔
            q ∈ (build_prelude { files := [(["a", "b.db"], "old")], dirs := [] }
              ["a", "b.db"]).files)) ∧
        (build_lite_fs { files := [(["a", "b.db"], "old")], dirs := [] }
            ["a", "b.db"] "new").files.filter (fun q => q.1 == ["a", "b.db"]) =
          [(["a", "b.db"], "new")] ∧
        ensure_output { files := [(["a", "b.db"], "old")], dirs := [] } ["a", "b.db"]
            false =
          .error ("Output already exists: " ++ render_path ["a", "b.db"]) ∧
        (∀ fs', ensure_output { files := [(["a", "b.db"], "old")], dirs := [] }
            ["a", "b.db"] true = .ok fs' →
          pathExistsFS fs' ["a", "b.db"] = false ∧
            (∀ d ∈ ancestorsOf ["a", "b.db"], d ∈ fs'.dirs) ∧
            (∀ q : List String × String, q.1 ≠ ["a", "b.db"] →
              (q ∈ ({ files := [(["a", "b.db"], "old")], dirs := [] } : FSState).files ↔
                q ∈ fs'.files)))) :=
  ⟨by decide,
    build_prelude_clean { files := [(["a", "b.db"], "old")], dirs := [] }
      ["a", "b.db"] "new" (by decide)⟩

/-- Appending to a nonempty string stays nonempty. -/
theorem str_append_ne_empty (s t : String) (hs : s ≠ "") : s ++ t ≠ "" := by
  intro hc
  apply hs
  have h2 : (s ++ t).length = 0 := by rw [hc]; rfl
  rw [String.length_append] at h2
  have h3 : s.data.length = 0 := by rw [String.length_data]; omega
  have h4 : s.data = [] := List.length_eq_zero.mp h3
  exact String.ext (by rw [h4])

/-- The intercalate accumulator never loses its prefix. -/
theorem intercalate_go_ne_empty (l : List String) (acc s : String) (hacc : acc ≠ "") :
    String.intercalate.go acc s l ≠ "" := by
  induction l generalizing acc with
  | nil => simpa [String.intercalate.go] using hacc
  | cons a as ih =>
    rw [String.intercalate.go]
    exact ih _ (str_append_ne_empty _ _ (str_append_ne_empty _ _ hacc))

/-- Python `";".join(bits) or "all"` agrees with the spec's
"`all` exactly when no field is present" as long as all bits are nonempty. -/
theorem pyOr_intercalate (bits : List String) (h : ∀ b ∈ bits, b ≠ "") :
    pyOr (String.intercalate ";" bits) "all" =
      if bits.isEmpty then "all" else String.intercalate ";" bits := by
  cases bits with
  | nil => rfl
  | cons b bs =>
    have hne : String.intercalate ";" (b :: bs) ≠ "" :=
      intercalate_go_ne_empty bs b ";" (h b (List.mem_cons_self b bs))
    have hie : (String.intercalate ";" (b :: bs)).isEmpty = false := by
      rw [← Bool.not_eq_true]
      intro hc
      exact hne ((String.isEmpty_iff _).mp hc)
    simp [pyOr, hie]

/-- The code's filter label agrees with the spec's fixed-order description. -/
theorem build_filter_label_eq_spec (country admin1 admin2 : Option String)
    (feature_codes : Option (List String)) :
    build_filter_label country admin1 admin2 feature_codes =
      filter_label_spec country admin1 admin2 feature_codes := by
  simp only [build_filter_label, filter_label_spec]
  refine pyOr_intercalate _ ?_
  intro b hb
  simp only [List.mem_append] at hb
  rcases hb with ((hb | hb) | hb) | hb
  · split at hb
    · rw [List.mem_singleton] at hb
      subst hb
      exact str_append_ne_empty _ _ (by decide)
    · exact absurd hb (List.not_mem_nil b)
  · split at hb
    · rw [List.mem_singleton] at hb
      subst hb
      exact str_append_ne_empty _ _ (by decide)
    · exact absurd hb (List.not_mem_nil b)
  · split at hb
    · rw [List.mem_singleton] at hb
      subst hb
      exact str_append_ne_empty _ _ (by decide)
    · exact absurd hb (List.not_mem_nil b)
  · split at hb
    · exact absurd hb (List.not_mem_nil b)
    · split at hb
      · exact absurd hb (List.not_mem_nil b)
      · rw [List.mem_singleton] at hb
        subst hb
        exact str_append_ne_empty _ _ (by decide)

/-- Replacing the bindings of one key leaves other lookups unchanged. -/
theorem lookup_map_replace (d : List (String × String)) (k v q : String)
    (hq : (q == k) = false) :
    (d.map (fun p => if p.1 == k then (k, v) else p)).lookup q = d.lookup q := by
  induction d with
  | nil => rfl
  | cons p ds ih =>
    by_cases hp : (p.1 == k) = true
    · have hpk : p.1 = k := eq_of_beq hp
      rw [List.map_cons, if_pos hp]
      rw [List.lookup_cons, List.lookup_cons, hpk, hq, ih]
    · have hp' : (p.1 == k) = false := by
        simpa using hp
      rw [List.map_cons, if_neg (by simp [hp'])]
      cases p with
      | mk pk pv =>
        rw [List.lookup_cons, List.lookup_cons]
        cases hqp : q == pk
        · exact ih
        · rfl

/-- Replacing the bindings of a present key makes its lookup the new value. -/
theorem lookup_map_replace_self (d : List (String × String)) (k v : String)
    (h : d.any (fun p => p.1 == k) = true) :
    (d.map (fun p => if p.1 == k then (k, v) else p)).lookup k = some v := by
  induction d with
  | nil => simp at h
  | cons p ds ih =>
    by_cases hp : (p.1 == k) = true
    · rw [List.map_cons, if_pos hp]
      rw [List.lookup_cons]
      simp
    · have hp' : (p.1 == k) = false := by
        simpa using hp
      have htail : ds.any (fun p => p.1 == k) = true := by
        rw [List.any_cons, hp'] at h
        simpa using h
      rw [List.map_cons, if_neg (by simp [hp'])]
      cases p with
      | mk pk pv =>
        have hkp : (k == pk) = false := by
          rw [beq_eq_false_iff_ne] at hp' ⊢
          exact fun hc => hp' hc.symm
        rw [List.lookup_cons, hkp, ih htail]

/-- A key bound nowhere looks up to `none`. -/
theorem lookup_none_of_any_false (d : List (String × String)) (k : String)
    (h : d.any (fun p => p.1 == k) = false) :
    d.lookup k = none := by
  induction d with
  | nil => rfl
  | cons p ds ih =>
    rw [List.any_cons] at h
    have hp : (p.1 == k) = false := by
      cases hpk : p.1 == k
      · rfl
      · rw [hpk] at h
        simp at h
    have htail : ds.any (fun p => p.1 == k) = false := by
      cases htl : ds.any (fun p => p.1 == k)
      · rfl
      · rw [htl] at h
        simp at h
    cases p with
    | mk pk pv =>
      have hkp : (k == pk) = false := by
        rw [beq_eq_false_iff_ne] at hp ⊢
        exact fun hc => hp hc.symm
      rw [List.lookup_cons, hkp, ih htail]

/-- Characterization of one Python dict insertion. -/
theorem lookup_dict_insert (d : List (String × String)) (k v q : String) :
    (dict_insert d k v).lookup q = if q == k then some v else d.lookup q := by
  unfold dict_insert
  by_cases h : d.any (fun p => p.1 == k) = true
  · rw [if_pos h]
    cases hq : q == k
    · rw [lookup_map_replace d k v q hq]
      simp [hq]
    · have hqk : q = k := eq_of_beq hq
      subst hqk
      rw [lookup_map_replace_self d q v h]
      simp
  · have h' : d.any (fun p => p.1 == k) = false := by
      cases hx : d.any (fun p => p.1 == k)
      · rfl
      · exact absurd hx h
    rw [if_neg (by simp [h'])]
    rw [List.lookup_append]
    cases hq : q == k
    · have : ([(k, v)] : List (String × String)).lookup q = none := by
        rw [List.lookup_cons, hq]
        rfl
      rw [this]
      simp [hq]
    · have hqk : q = k := eq_of_beq hq
      subst hqk
      rw [lookup_none_of_any_false d q h']
      simp

/-- C8 counterexample: a build invoked with a non-empty caller label writes that
label verbatim as `lite_filter` — not the fixed-order filter description — and
the API builder's metadata consists of the two derived rows only (no master
metadata is merged in). -/
theorem build_metadata_label_counterexample :
    (build_lite_dataset [] (some "US") none none none "custom" "T0").metadata =
      [("lite_filter", "custom"), ("lite_generated_at", "T0")] ∧
      "custom" ≠ build_filter_label (some "US") none none none ∧
      build_filter_label (some "US") none none none = "country=US" :=
  ⟨rfl, by decide, rfl⟩

/-- C8 (amended): every completed subset build writes a `lite_generated_at`
timestamp row and a `lite_filter` row holding the deterministic fixed-order
filter description when the caller supplies no non-empty label (a non-empty
caller label is written verbatim instead); the description follows the spec's
fixed field order, omits absent fields and is the literal `all` when no field
is present; and the offline generator's `copy_metadata` merges the master's
metadata rows in, with the derived entries overriding same-keyed inherited
ones. -/
theorem build_metadata_spec (master : List Feature) (country admin1 admin2 : Option String)
    (feature_codes : Option (List String)) (label now : String)
    (src_rows : List (String × String)) (fd sp : String) (k : String) :
    ((build_lite_dataset master country admin1 admin2 feature_codes label now).metadata.lookup
        "lite_generated_at" = some now) ∧
      ((build_lite_dataset master country admin1 admin2 feature_codes label now).metadata.lookup
        "lite_filter" = some (if label.isEmpty then
          build_filter_label country admin1 admin2 feature_codes else label)) ∧
      build_filter_label country admin1 admin2 feature_codes =
        filter_label_spec country admin1 admin2 feature_codes ∧
      (copy_metadata src_rows fd sp now).lookup "lite_generated_at" = some now ∧
      (copy_metadata src_rows fd sp now).lookup "lite_filter" = some fd ∧
      (copy_metadata src_rows fd sp now).lookup "lite_source_db" = some sp ∧
      (k ≠ "lite_generated_at" → k ≠ "lite_filter" → k ≠ "lite_source_db" →
        (copy_metadata src_rows fd sp now).lookup k = src_rows.lookup k) := by
  have hcm : copy_metadata src_rows fd sp now =
      dict_insert (dict_insert (dict_insert src_rows "lite_generated_at" now)
        "lite_filter" fd) "lite_source_db" sp := rfl
  refine ⟨rfl, rfl, build_filter_label_eq_spec country admin1 admin2 feature_codes,
    ?_, ?_, ?_, ?_⟩
  · rw [hcm, lookup_dict_insert, if_neg (by decide), lookup_dict_insert,
      if_neg (by decide), lookup_dict_insert, if_pos (by decide)]
  · rw [hcm, lookup_dict_insert, if_neg (by decide), lookup_dict_insert,
      if_pos (by decide)]
  · rw [hcm, lookup_dict_insert, if_pos (by decide)]
  · intro h1 h2 h3
    rw [hcm, lookup_dict_insert, if_neg (by simpa using h3), lookup_dict_insert,
      if_neg (by simpa using h2), lookup_dict_insert, if_neg (by simpa using h1)]

/-- Witness for the amended C8 at a concrete input. -/
theorem build_metadata_spec_witness :
    (("other" : String) ≠ "lite_generated_at" ∧ ("other" : String) ≠ "lite_filter" ∧
      ("other" : String) ≠ "lite_source_db") ∧
      (copy_metadata [("a", "b")] "F" "S" "T").lookup "other" =
        [("a", "b")].lookup "other" := by
  have h := build_metadata_spec [] none none none none "" "T" [("a", "b")] "F" "S" "other"
  exact ⟨⟨by decide, by decide, by decide⟩,
    h.2.2.2.2.2.2 (by decide) (by decide) (by decide)⟩

theorem foldl_min_mem (xs : List ℚ) (x : ℚ) : xs.foldl min x ∈ x :: xs := by
  induction xs generalizing x with
  | nil => simp
  | cons y ys ih =>
    rw [List.foldl_cons]
    have h := ih (min x y)
    rcases List.mem_cons.mp h with h | h
    · rw [h]
      rcases min_choice x y with hm | hm <;> rw [hm] <;> simp
    · exact List.mem_cons_of_mem x (List.mem_cons_of_mem y h)

theorem foldl_min_le (xs : List ℚ) (x : ℚ) :
    xs.foldl min x ≤ x ∧ ∀ q ∈ xs, xs.foldl min x ≤ q := by
  induction xs generalizing x with
  | nil => exact ⟨le_refl x, by simp⟩
  | cons y ys ih =>
    obtain ⟨h1, h2⟩ := ih (min x y)
    rw [List.foldl_cons]
    refine ⟨le_trans h1 (min_le_left x y), ?_⟩
    intro q hq
    rcases List.mem_cons.mp hq with h | h
    · subst h
      exact le_trans h1 (min_le_right x q)
    · exact h2 q h

theorem foldl_max_mem (xs : List ℚ) (x : ℚ) : xs.foldl max x ∈ x :: xs := by
  induction xs generalizing x with
  | nil => simp
  | cons y ys ih =>
    rw [List.foldl_cons]
    have h := ih (max x y)
    rcases List.mem_cons.mp h with h | h
    · rw [h]
      rcases max_choice x y with hm | hm <;> rw [hm] <;> simp
    · exact List.mem_cons_of_mem x (List.mem_cons_of_mem y h)

theorem foldl_max_le (xs : List ℚ) (x : ℚ) :
    x ≤ xs.foldl max x ∧ ∀ q ∈ xs, q ≤ xs.foldl max x := by
  induction xs generalizing x with
  | nil => exact ⟨le_refl x, by simp⟩
  | cons y ys ih =>
    obtain ⟨h1, h2⟩ := ih (max x y)
    rw [List.foldl_cons]
    refine ⟨le_trans (le_max_left x y) h1, ?_⟩
    intro q hq
    rcases List.mem_cons.mp hq with h | h
    · subst h
      exact le_trans (le_max_right x q) h1
    · exact h2 q h

/-- The SQL `MIN` of a nonempty column is one of its values. -/
theorem sql_min_mem (l : List ℚ) (hl : l ≠ []) : sql_min l ∈ l := by
  cases l with
  | nil => exact absurd rfl hl
  | cons x xs => exact foldl_min_mem xs x

/-- The SQL `MIN` of a column bounds every value below. -/
theorem sql_min_le (l : List ℚ) (q : ℚ) (hq : q ∈ l) : sql_min l ≤ q := by
  cases l with
  | nil => simp at hq
  | cons x xs =>
    rcases List.mem_cons.mp hq with h | h
    · subst h
      exact (foldl_min_le xs q).1
    · exact (foldl_min_le xs x).2 q h

/-- The SQL `MAX` of a nonempty column is one of its values. -/
theorem sql_max_mem (l : List ℚ) (hl : l ≠ []) : sql_max l ∈ l := by
  cases l with
  | nil => exact absurd rfl hl
  | cons x xs => exact foldl_max_mem xs x

/-- The SQL `MAX` of a column bounds every value above. -/
theorem sql_max_le (l : List ℚ) (q : ℚ) (hq : q ∈ l) : q ≤ sql_max l := by
  cases l with
  | nil => simp at hq
  | cons x xs =>
    rcases List.mem_cons.mp hq with h | h
    · subst h
      exact (foldl_max_le xs q).1
    · exact (foldl_max_le xs x).2 q h

theorem region_desc_trans (a b c : RegionRow) (hab : region_desc a b)
    (hbc : region_desc b c) : region_desc a c := by
  simp only [region_desc, decide_eq_true_eq] at *
  omega

theorem region_desc_total (a b : RegionRow) : region_desc a b || region_desc b a := by
  simp only [region_desc, Bool.or_eq_true, decide_eq_true_eq]
  omega

/-- Valid levels let `scan_regions` reach the aggregation pipeline. -/
theorem scan_regions_ok (db : List Feature) (level : String) (country : Option String)
    (min_count limit : ℕ) (hl : level = "admin1" ∨ level = "admin2") :
    scan_regions db level country min_count limit =
      .ok (((region_rows db level country min_count).mergeSort region_desc).take limit) := by
  unfold scan_regions
  rw [if_neg (not_not_intro hl)]

/-- Facts about one group descriptor, for any key realised by a scanned row. -/
theorem mk_region_row_spec (db : List Feature) (level : String) (country : Option String)
    (k : Option String × Option String × Option String)
    (hk : ∃ f ∈ region_base db country, region_key level f = k) :
    (mk_region_row db level country k).n = (region_group db level country k).length ∧
      region_group db level country k ≠ [] ∧
      (mk_region_row db level country k).min_lat ∈
        (region_group db level country k).map (fun f => f.latitude) ∧
      (∀ f ∈ region_group db level country k,
        (mk_region_row db level country k).min_lat ≤ f.latitude) ∧
      (mk_region_row db level country k).max_lat ∈
        (region_group db level country k).map (fun f => f.latitude) ∧
      (∀ f ∈ region_group db level country k,
        f.latitude ≤ (mk_region_row db level country k).max_lat) ∧
      (mk_region_row db level country k).min_lng ∈
        (region_group db level country k).map (fun f => f.longitude) ∧
      (∀ f ∈ region_group db level country k,
        (mk_region_row db level country k).min_lng ≤ f.longitude) ∧
      (mk_region_row db level country k).max_lng ∈
        (region_group db level country k).map (fun f => f.longitude) ∧
      (∀ f ∈ region_group db level country k,
        f.longitude ≤ (mk_region_row db level country k).max_lng) ∧
      (mk_region_row db level country k).level = level ∧
      (mk_region_row db level country k).label =
        region_label k.1 k.2.1 k.2.2 (region_group db level country k).length ∧
      region_row_key (mk_region_row db level country k) = k := by
  obtain ⟨f, hf, hfk⟩ := hk
  have hmem : f ∈ region_group db level country k :=
    List.mem_filter.mpr ⟨hf, decide_eq_true hfk⟩
  have hne : region_group db level country k ≠ [] := List.ne_nil_of_mem hmem
  have hlat : (region_group db level country k).map (fun f => f.latitude) ≠ [] := by
    simpa [List.map_eq_nil_iff] using hne
  have hlng : (region_group db level country k).map (fun f => f.longitude) ≠ [] := by
    simpa [List.map_eq_nil_iff] using hne
  refine ⟨rfl, hne, sql_min_mem _ hlat, ?_, sql_max_mem _ hlat, ?_,
    sql_min_mem _ hlng, ?_, sql_max_mem _ hlng, ?_, rfl, rfl, rfl⟩
  · intro g hg
    exact sql_min_le _ _ (List.mem_map_of_mem _ hg)
  · intro g hg
    exact sql_max_le _ _ (List.mem_map_of_mem _ hg)
  · intro g hg
    exact sql_min_le _ _ (List.mem_map_of_mem _ hg)
  · intro g hg
    exact sql_max_le _ _ (List.mem_map_of_mem _ hg)

/-- Every aggregated row comes from a realised group key meeting `min_count`. -/
theorem mem_region_rows {db : List Feature} {level : String} {country : Option String}
    {min_count : ℕ} {r : RegionRow} (h : r ∈ region_rows db level country min_count) :
    min_count ≤ r.n ∧ r = mk_region_row db level country (region_row_key r) ∧
      ∃ f ∈ region_base db country, region_key level f = region_row_key r := by
  unfold region_rows at h
  have h1 := List.mem_filter.mp h
  obtain ⟨k, hk, hr⟩ := List.mem_map.mp h1.1
  have hn : min_count ≤ r.n := by simpa using h1.2
  have hkey : region_row_key r = k := by
    rw [← hr]
    rfl
  have hk2 := List.mem_dedup.mp hk
  obtain ⟨f, hf, hfk⟩ := List.mem_map.mp hk2
  refine ⟨hn, ?_, f, hf, ?_⟩
  · rw [hkey]
    exact hr.symm
  · rw [hfk, hkey]

/-- C9: for every valid `scan_regions` call, the result has at most `limit`
rows, is ordered by descending count, holds one descriptor per distinct group
key (`(country, admin1)` at level admin1, `(country, admin1, admin2)` at level
admin2), each descriptor carries its group's exact count and min/max
latitude/longitude, only groups meeting `min_count` appear (and all of them do
when `limit` does not truncate), and each label joins the non-empty identity
parts and appends the count. -/
theorem scan_regions_correct (db : List Feature) (level : String) (country : Option String)
    (min_count limit : ℕ) (out : List RegionRow)
    (hl : level = "admin1" ∨ level = "admin2")
    (hres : scan_regions db level country min_count limit = .ok out) :
    out.length ≤ limit ∧
      out.Pairwise (fun a b => b.n ≤ a.n) ∧
      out.Pairwise (fun a b => region_row_key a ≠ region_row_key b) ∧
      (∀ r ∈ out,
        min_count ≤ r.n ∧
          r.n = (region_group db level country (region_row_key r)).length ∧
          region_group db level country (region_row_key r) ≠ [] ∧
          r.min_lat ∈ (region_group db level country (region_row_key r)).map
            (fun f => f.latitude) ∧
          (∀ f ∈ region_group db level country (region_row_key r),
            r.min_lat ≤ f.latitude) ∧
          r.max_lat ∈ (region_group db level country (region_row_key r)).map
            (fun f => f.latitude) ∧
          (∀ f ∈ region_group db level country (region_row_key r),
            f.latitude ≤ r.max_lat) ∧
          r.min_lng ∈ (region_group db level country (region_row_key r)).map
            (fun f => f.longitude) ∧
          (∀ f ∈ region_group db level country (region_row_key r),
            r.min_lng ≤ f.longitude) ∧
          r.max_lng ∈ (region_group db level country (region_row_key r)).map
            (fun f => f.longitude) ∧
          (∀ f ∈ region_group db level country (region_row_key r),
            f.longitude ≤ r.max_lng) ∧
          r.level = level ∧
          r.label = region_label r.country r.admin1 r.admin2 r.n) ∧
      ((region_rows db level country min_count).length ≤ limit →
        ∀ f ∈ region_base db country,
          min_count ≤ (region_group db level country (region_key level f)).length →
          ∃ r ∈ out, region_row_key r = region_key level f) := by
  have hok := scan_regions_ok db level country min_count limit hl
  rw [hres] at hok
  have ho : out = ((region_rows db level country min_count).mergeSort region_desc).take
      limit := Except.ok.inj hok
  subst ho
  refine ⟨List.length_take_le _ _, ?_, ?_, ?_, ?_⟩
  · have hs := List.sorted_mergeSort region_desc_trans region_desc_total
      (region_rows db level country min_count)
    have hs2 := hs.sublist (List.take_sublist limit
      ((region_rows db level country min_count).mergeSort region_desc))
    exact hs2.imp (fun h => by simpa [region_desc] using h)
  · have h0 : (((region_base db country).map (region_key level)).dedup).Nodup :=
      List.nodup_dedup _
    have h1 : ((((region_base db country).map (region_key level)).dedup).map
        (mk_region_row db level country)).map region_row_key =
        ((region_base db country).map (region_key level)).dedup := by
      rw [List.map_map,
        show region_row_key ∘ mk_region_row db level country = id from funext fun k => rfl,
        List.map_id]
    have h2 : (((((region_base db country).map (region_key level)).dedup).map
        (mk_region_row db level country)).map region_row_key).Nodup := by
      rw [h1]
      exact h0
    have h3 : List.Sublist (region_rows db level country min_count)
        ((((region_base db country).map (region_key level)).dedup).map
          (mk_region_row db level country)) := List.filter_sublist _
    have h4 : ((region_rows db level country min_count).map region_row_key).Nodup :=
      h2.sublist (h3.map region_row_key)
    have h5 : (((region_rows db level country min_count).mergeSort region_desc).map
        region_row_key).Nodup := by
      have hperm := (List.mergeSort_perm (region_rows db level country min_count)
        region_desc).map region_row_key
      exact hperm.nodup_iff.mpr h4
    have h6 : ((((region_rows db level country min_count).mergeSort region_desc).take
        limit).map region_row_key).Nodup := by
      rw [List.map_take]
      exact h5.sublist (List.take_sublist _ _)
    exact List.pairwise_map.mp h6
  · intro r hr
    have hrr : r ∈ region_rows db level country min_count :=
      List.mem_mergeSort.mp (List.mem_of_mem_take hr)
    obtain ⟨hn, hreq, hex⟩ := mem_region_rows hrr
    obtain ⟨hn2, hne, hm1, hb1, hm2, hb2, hm3, hb3, hm4, hb4, hlev, hlab, -⟩ :=
      mk_region_row_spec db level country (region_row_key r) hex
    rw [← hreq] at hn2 hm1 hb1 hm2 hb2 hm3 hb3 hm4 hb4 hlev hlab
    refine ⟨hn, hn2, hne, hm1, hb1, hm2, hb2, hm3, hb3, hm4, hb4, hlev, ?_⟩
    rw [hn2]
    exact hlab
  · intro hlen f hf hcount
    have hkmem : region_key level f ∈
        ((region_base db country).map (region_key level)).dedup :=
      List.mem_dedup.mpr (List.mem_map_of_mem _ hf)
    have hmkmem : mk_region_row db level country (region_key level f) ∈
        (((region_base db country).map (region_key level)).dedup).map
          (mk_region_row db level country) := List.mem_map_of_mem _ hkmem
    have hfilter : mk_region_row db level country (region_key level f) ∈
        region_rows db level country min_count := by
      unfold region_rows
      exact List.mem_filter.mpr ⟨hmkmem, decide_eq_true hcount⟩
    have hmem2 : mk_region_row db level country (region_key level f) ∈
        (region_rows db level country min_count).mergeSort region_desc :=
      List.mem_mergeSort.mpr hfilter
    have htake : ((region_rows db level country min_count).mergeSort region_desc).take
        limit = (region_rows db level country min_count).mergeSort region_desc := by
      apply List.take_of_length_le
      rw [List.length_mergeSort]
      exact hlen
    refine ⟨mk_region_row db level country (region_key level f), ?_, rfl⟩
    rw [htake]
    exact hmem2

/-- Witness for C9 at a concrete master dataset. -/
theorem scan_regions_correct_witness :
    ("admin1" = "admin1" ∨ "admin1" = "admin2") ∧
      scan_regions witnessDb "admin1" none 1 10 = .ok [witnessRow] ∧
      (([witnessRow] : List RegionRow).length ≤ 10 ∧
        ([witnessRow] : List RegionRow).Pairwise (fun a b => b.n ≤ a.n) ∧
        ([witnessRow] : List RegionRow).Pairwise
          (fun a b => region_row_key a ≠ region_row_key b) ∧
        (∀ r ∈ ([witnessRow] : List RegionRow),
          1 ≤ r.n ∧
            r.n = (region_group witnessDb "admin1" none (region_row_key r)).length ∧
            region_group witnessDb "admin1" none (region_row_key r) ≠ [] ∧
            r.min_lat ∈ (region_group witnessDb "admin1" none (region_row_key r)).map
              (fun f => f.latitude) ∧
            (∀ f ∈ region_group witnessDb "admin1" none (region_row_key r),
              r.min_lat ≤ f.latitude) ∧
            r.max_lat ∈ (region_group witnessDb "admin1" none (region_row_key r)).map
              (fun f => f.latitude) ∧
            (∀ f ∈ region_group witnessDb "admin1" none (region_row_key r),
              f.latitude ≤ r.max_lat) ∧
            r.min_lng ∈ (region_group witnessDb "admin1" none (region_row_key r)).map
              (fun f => f.longitude) ∧
            (∀ f ∈ region_group witnessDb "admin1" none (region_row_key r),
              r.min_lng ≤ f.longitude) ∧
            r.max_lng ∈ (region_group witnessDb "admin1" none (region_row_key r)).map
              (fun f => f.longitude) ∧
            (∀ f ∈ region_group witnessDb "admin1" none (region_row_key r),
              f.longitude ≤ r.max_lng) ∧
            r.level = "admin1" ∧
            r.label = region_label r.country r.admin1 r.admin2 r.n) ∧
        ((region_rows witnessDb "admin1" none 1).length ≤ 10 →
          ∀ f ∈ region_base witnessDb none,
            1 ≤ (region_group witnessDb "admin1" none (region_key "admin1" f)).length →
            ∃ r ∈ ([witnessRow] : List RegionRow),
              region_row_key r = region_key "admin1" f)) := by
  have hrows : region_rows witnessDb "admin1" none 1 = [witnessRow] := by decide
  have hres : scan_regions witnessDb "admin1" none 1 10 = .ok [witnessRow] := by
    simp [scan_regions, hrows]
  exact ⟨Or.inl rfl, hres,
    scan_regions_correct witnessDb "admin1" none 1 10 [witnessRow] (Or.inl rfl) hres⟩

end DaliTrail
